import Mathlib

/-!
# Event-to-request mapping handlers

A shallow embedding of `pkg/controller/handlers/handlers.go`: the four
constructors `LabelToName`, `AnnotationToName`, `Fn` and `ToNamed`, each of
which wraps a mapping function `(ctx, object) -> []reconcile.Request` into an
event handler through `handler.EnqueueRequestsFromMapFunc`.

Modelling choices.

* A Go `map[string]string` is either the nil map or a finite table with
  pairwise distinct keys.  Reading a key that is not there yields the zero
  value `""`, also on the nil map; `len` of the nil map is `0`.
* `client.Object` is an interface value, so the argument of a mapping
  function may be the nil interface: it is an `Option Object`.  Calling a
  method on the nil interface is a run-time panic, which is why a mapping
  function returns `Except Panic (List Request)`.
* `reconcile.Request` embeds `types.NamespacedName`; a composite literal
  that sets only `Name` leaves `Namespace` at its zero value `""`.
* A slice of requests is a `List Request` (the nil slice and the empty
  slice are both `[]`).
-/

namespace Handlers

/-! ## Data model -/

/-- The populated part of a Go `map[string]string`: a table of key/value
pairs in which no key occurs twice. -/
structure MapData where
  entries : List (String × String)
  nodup : (entries.map Prod.fst).Nodup

/-- A Go `map[string]string` value: `none` is the nil map. -/
abbrev GoMap := Option MapData

/-- The empty, non-nil map `map[string]string{}`. -/
def MapData.empty : MapData := ⟨[], List.nodup_nil⟩

/-- The value stored under `key`, when the key is present. -/
def MapData.get? (d : MapData) (key : String) : Option String :=
  d.entries.lookup key

/-- Go `len(m)`: the number of keys, `0` for the nil map. -/
def GoMap.len : GoMap → Nat
  | none => 0
  | some d => d.entries.length

/-- The value stored under `key`, when the map is non-nil and has the key. -/
def GoMap.get? : GoMap → String → Option String
  | none, _ => none
  | some d, key => d.get? key

/-- Go `m[key]`: the stored value, or the zero value `""` when the key is
absent or the map is nil.  Reading never fails. -/
def GoMap.index (m : GoMap) (key : String) : String :=
  (m.get? key).getD ""

/-- The part of `client.Object` that matters here: the object's identity and
its two string maps, read through `GetLabels` and `GetAnnotations`. -/
structure Object where
  name : String
  ns : String
  labels : GoMap
  annotations : GoMap

/-- Method `GetLabels` of a non-nil object. -/
def Object.GetLabels (o : Object) : GoMap := o.labels

/-- Method `GetAnnotations` of a non-nil object. -/
def Object.GetAnnotations (o : Object) : GoMap := o.annotations

/-- Go `types.NamespacedName`. -/
structure NamespacedName where
  Namespace : String
  Name : String
  deriving DecidableEq, Repr

/-- Go `reconcile.Request`. -/
structure Request where
  NamespacedName : NamespacedName
  deriving DecidableEq, Repr

/-- The composite literal
`reconcile.Request{NamespacedName: types.NamespacedName{Name: name}}`:
the namespace keeps its zero value. -/
def Request.named (name : String) : Request :=
  { NamespacedName := { Namespace := "", Name := name } }

/-- What the caller hands over as `context.Context`; the handlers of this
file never look at it. -/
structure Context where
  cancelled : Bool
  deadline : Option Nat
  deriving DecidableEq, Repr

/-- Run-time panics a mapping function can raise. -/
inductive Panic where
  | nilDereference
  deriving DecidableEq, Repr

deriving instance DecidableEq for Except

/-- The type `handler.MapFunc`:
`func(ctx context.Context, a client.Object) []reconcile.Request`. -/
abbrev MapFunc := Context → Option Object → Except Panic (List Request)

/-- The value of `handler.EventHandler` built by
`handler.EnqueueRequestsFromMapFunc`: it holds the mapping function that
the event source calls once per event. -/
structure EventHandler where
  toRequests : MapFunc

/-- The library adapter `handler.EnqueueRequestsFromMapFunc`. -/
def EnqueueRequestsFromMapFunc (fn : MapFunc) : EventHandler :=
  { toRequests := fn }

/-! ## The handlers -/

/-- Lines 12-30: map an object to the request named by its label `key`. -/
def LabelToName (key : String) : EventHandler :=
  EnqueueRequestsFromMapFunc fun _ctx a =>
    match a with
    | none => .error Panic.nilDereference
    | some a =>
      let values := a.GetLabels
      if values.len = 0 then
        .ok []
      else
        let name := values.index key
        if name = "" then
          .ok []
        else
          .ok [Request.named name]

/-- Lines 31-49: map an object to the request named by its annotation
`key`. -/
def AnnotationToName (key : String) : EventHandler :=
  EnqueueRequestsFromMapFunc fun _ctx obj =>
    match obj with
    | none => .error Panic.nilDereference
    | some obj =>
      let values := obj.GetAnnotations
      if values.len = 0 then
        .ok []
      else
        let name := values.index key
        if name = "" then
          .ok []
        else
          .ok [Request.named name]

/-- Lines 51-53: wrap a caller-supplied mapping function. -/
def Fn (fn : MapFunc) : EventHandler :=
  EnqueueRequestsFromMapFunc fn

/-- Lines 55-63: map every object to the one request named `name`. -/
def ToNamed (name : String) : EventHandler :=
  EnqueueRequestsFromMapFunc fun _ctx _a =>
    .ok [Request.named name]

/-! ## Properties of an outcome -/

/-- The returned sequence, if the call returns one, satisfies `P`; a call
that panics returns no sequence. -/
def IfReturns (P : List Request → Prop) : Except Panic (List Request) → Prop
  | .ok rs => P rs
  | .error _ => True

/-- The call returns a sequence, and that sequence satisfies `P`. -/
def Returns (P : List Request → Prop) : Except Panic (List Request) → Prop
  | .ok rs => P rs
  | .error _ => False

instance (P : List Request → Prop) [DecidablePred P]
    (res : Except Panic (List Request)) : Decidable (IfReturns P res) :=
  match res with
  | .ok rs => inferInstanceAs (Decidable (P rs))
  | .error _ => inferInstanceAs (Decidable True)

instance (P : List Request → Prop) [DecidablePred P]
    (res : Except Panic (List Request)) : Decidable (Returns P res) :=
  match res with
  | .ok rs => inferInstanceAs (Decidable (P rs))
  | .error _ => inferInstanceAs (Decidable False)

/-- Every request of the sequence has a non-empty target name. -/
def NamesSet (rs : List Request) : Prop :=
  ∀ r ∈ rs, r.NamespacedName.Name ≠ ""

/-- Every request of the sequence has the empty namespace. -/
def NamespacesEmpty (rs : List Request) : Prop :=
  ∀ r ∈ rs, r.NamespacedName.Namespace = ""

/-- The sequence has at most one request. -/
def AtMostOne (rs : List Request) : Prop :=
  rs.length ≤ 1

instance : DecidablePred NamesSet :=
  fun rs => inferInstanceAs (Decidable (∀ r ∈ rs, r.NamespacedName.Name ≠ ""))

instance : DecidablePred NamespacesEmpty :=
  fun rs => inferInstanceAs (Decidable (∀ r ∈ rs, r.NamespacedName.Namespace = ""))

instance : DecidablePred AtMostOne :=
  fun rs => inferInstanceAs (Decidable (rs.length ≤ 1))

/-- A delegate that names no target: it returns one request with a blank
name. -/
def blankDelegate : MapFunc :=
  fun _ctx _a => .ok [{ NamespacedName := { Namespace := "", Name := "" } }]

/-- A delegate for a namespaced target: it returns one request in the
namespace of the object, or in `"default"` for the nil object. -/
def namespacedDelegate : MapFunc :=
  fun _ctx a =>
    match a with
    | none => .ok [{ NamespacedName := { Namespace := "default", Name := "cfg" } }]
    | some o => .ok [{ NamespacedName := { Namespace := o.ns, Name := "cfg" } }]

/-- A delegate that returns two requests. -/
def twoDelegate : MapFunc :=
  fun _ctx _a => .ok [Request.named "a", Request.named "b"]

/-! ## Reference forms of the lookup -/

/-- The one helper that the two lookups could share, written from its
description: look `key` up in the map `m`; an absent key (or an absent map)
and an empty value are both no match and give no request, any other value
gives the one request named by it. -/
def lookupRequests (m : GoMap) (key : String) : List Request :=
  match m.get? key with
  | none => []
  | some v => if v = "" then [] else [Request.named v]

/-- The body of `LabelToName` and `AnnotationToName` with the early return
on `len(values) == 0` left out: read `values[key]`, return nothing for the
empty string and the one request named by the value otherwise. -/
def lookupUnguarded (values : GoMap) (key : String) : Except Panic (List Request) :=
  let name := values.index key
  if name = "" then
    .ok []
  else
    .ok [Request.named name]

/-- `LabelToName` without the guard on the length of the label map. -/
def LabelToNameUnguarded (key : String) : EventHandler :=
  EnqueueRequestsFromMapFunc fun _ctx a =>
    match a with
    | none => .error Panic.nilDereference
    | some a => lookupUnguarded a.GetLabels key

/-- `AnnotationToName` without the guard on the length of the annotation
map. -/
def AnnotationToNameUnguarded (key : String) : EventHandler :=
  EnqueueRequestsFromMapFunc fun _ctx obj =>
    match obj with
    | none => .error Panic.nilDereference
    | some obj => lookupUnguarded obj.GetAnnotations key

/-! ## Sample inputs -/

/-- The label map `{"owner": "team-a", "tier": "gold"}`. -/
def ownerTier : MapData :=
  ⟨[("owner", "team-a"), ("tier", "gold")], by decide⟩

/-- The map `{"owner": "", "tier": "gold"}`. -/
def blankOwner : MapData :=
  ⟨[("owner", ""), ("tier", "gold")], by decide⟩

/-- An object labelled `{"owner": "team-a", "tier": "gold"}` with a nil
annotation map. -/
def labelled : Object :=
  { name := "cm", ns := "default", labels := some ownerTier, annotations := none }

/-- An object annotated `{"owner": "team-a", "tier": "gold"}` with a nil
label map. -/
def annotated : Object :=
  { name := "cm", ns := "default", labels := none, annotations := some ownerTier }

/-- An object with no label map and no annotation map. -/
def bare : Object :=
  { name := "cm", ns := "default", labels := none, annotations := none }

/-- An object whose two maps are the empty, non-nil map. -/
def emptyMaps : Object :=
  { name := "cm", ns := "default", labels := some MapData.empty,
    annotations := some MapData.empty }

/-- An object whose two maps are `{"owner": "", "tier": "gold"}`. -/
def blank : Object :=
  { name := "cm", ns := "default", labels := some blankOwner,
    annotations := some blankOwner }

/-- An object labelled `{"owner": "team-a"}` only, annotated
`{"owner": "", "tier": "gold"}`. -/
def ownerOnly : Object :=
  { name := "secret", ns := "kube-system",
    labels := some ⟨[("owner", "team-a")], by decide⟩,
    annotations := some blankOwner }

/-- A context that is still live. -/
def background : Context := { cancelled := false, deadline := none }

/-- A context that has been cancelled. -/
def cancelledCtx : Context := { cancelled := true, deadline := some 0 }

/-! ## Reading a map -/

theorem GoMap.len_pos_of_get? {m : GoMap} {key v : String}
    (h : m.get? key = some v) : m.len ≠ 0 := by
  cases m with
  | none => simp [GoMap.get?] at h
  | some d =>
    obtain ⟨entries, nodup⟩ := d
    cases entries with
    | nil => simp [GoMap.get?, MapData.get?] at h
    | cons e rest => simp [GoMap.len]

theorem GoMap.index_of_get?_some {m : GoMap} {key v : String}
    (h : m.get? key = some v) : m.index key = v := by
  simp [GoMap.index, h]

theorem GoMap.index_of_get?_none {m : GoMap} {key : String}
    (h : m.get? key = none) : m.index key = "" := by
  simp [GoMap.index, h]

/-- The body shared by the two lookups, on the map they read: nothing for a
map without keys or a blank value, otherwise the one request named by the
value. -/
theorem LabelToName_some (key : String) (ctx : Context) (o : Object) :
    (LabelToName key).toRequests ctx (some o) =
      if o.labels.len = 0 then .ok []
      else if o.labels.index key = "" then .ok []
      else .ok [Request.named (o.labels.index key)] := rfl

theorem AnnotationToName_some (key : String) (ctx : Context) (o : Object) :
    (AnnotationToName key).toRequests ctx (some o) =
      if o.annotations.len = 0 then .ok []
      else if o.annotations.index key = "" then .ok []
      else .ok [Request.named (o.annotations.index key)] := rfl

theorem ToNamed_apply (name : String) (ctx : Context) (a : Option Object) :
    (ToNamed name).toRequests ctx a = .ok [Request.named name] := rfl

theorem Fn_apply (fn : MapFunc) (ctx : Context) (a : Option Object) :
    (Fn fn).toRequests ctx a = fn ctx a := rfl

/-! ## LabelToName -/

/-- C1: for every key, every non-empty string `v` and every object whose
label map maps `key` to `v`, whatever its other labels, the mapping function
of `LabelToName key` returns exactly one request, named `v`, with the empty
namespace. -/
theorem LabelToName_present (key v : String) (ctx : Context) (o : Object)
    (hv : v ≠ "") (hkey : o.labels.get? key = some v) :
    (LabelToName key).toRequests ctx (some o)
      = .ok [{ NamespacedName := { Namespace := "", Name := v } }] := by
  rw [LabelToName_some, if_neg (GoMap.len_pos_of_get? hkey),
    GoMap.index_of_get?_some hkey, if_neg hv]
  rfl

theorem LabelToName_present_witness :
    labelled.labels.get? "owner" = some "team-a" ∧
    (LabelToName "owner").toRequests background (some labelled)
      = .ok [{ NamespacedName := { Namespace := "", Name := "team-a" } }] :=
  ⟨by decide,
   LabelToName_present "owner" "team-a" background labelled (by decide) (by decide)⟩

/-- C2: for every key and every object whose label map is the nil map or
has no keys, the mapping function of `LabelToName key` returns the empty
sequence. -/
theorem LabelToName_no_labels (key : String) (ctx : Context) (o : Object)
    (h : o.labels = none ∨ ∃ d, o.labels = some d ∧ d.entries = []) :
    (LabelToName key).toRequests ctx (some o) = .ok [] := by
  have hlen : o.labels.len = 0 := by
    rcases h with h | ⟨d, h, hd⟩
    · rw [h]; rfl
    · rw [h]; simp [GoMap.len, hd]
  rw [LabelToName_some, if_pos hlen]

theorem LabelToName_no_labels_witness :
    (LabelToName "owner").toRequests background (some bare) = .ok [] ∧
    (LabelToName "owner").toRequests background (some emptyMaps) = .ok [] :=
  ⟨LabelToName_no_labels "owner" background bare (Or.inl rfl),
   LabelToName_no_labels "owner" background emptyMaps
     (Or.inr ⟨MapData.empty, rfl, rfl⟩)⟩

/-- C3: for every key and every object whose label map has keys but either
lacks `key` or stores the empty string under it, the mapping function of
`LabelToName key` returns the empty sequence, whatever the other labels. -/
theorem LabelToName_absent_or_blank (key : String) (ctx : Context) (o : Object)
    (hne : o.labels.len ≠ 0)
    (h : o.labels.get? key = none ∨ o.labels.get? key = some "") :
    (LabelToName key).toRequests ctx (some o) = .ok [] := by
  have hidx : o.labels.index key = "" := by
    rcases h with h | h
    · exact GoMap.index_of_get?_none h
    · exact GoMap.index_of_get?_some h
  rw [LabelToName_some, if_neg hne, if_pos hidx]

theorem LabelToName_absent_or_blank_witness :
    (LabelToName "missing").toRequests background (some labelled) = .ok [] ∧
    (LabelToName "owner").toRequests background (some blank) = .ok [] :=
  ⟨LabelToName_absent_or_blank "missing" background labelled (by decide)
     (Or.inl (by decide)),
   LabelToName_absent_or_blank "owner" background blank (by decide)
     (Or.inr (by decide))⟩

/-! ## AnnotationToName -/

/-- C4: the three properties of `LabelToName` hold for `AnnotationToName`
over the annotation map: for every key and object the result is the empty
sequence when the annotation map is nil or has no keys, the empty sequence
when `key` is absent from it or mapped to the empty string, and otherwise
exactly one request named by the annotation value with the empty
namespace. -/
theorem AnnotationToName_contract (key : String) (ctx : Context) (o : Object) :
    ((o.annotations = none ∨ ∃ d, o.annotations = some d ∧ d.entries = []) →
      (AnnotationToName key).toRequests ctx (some o) = .ok []) ∧
    ((o.annotations.get? key = none ∨ o.annotations.get? key = some "") →
      (AnnotationToName key).toRequests ctx (some o) = .ok []) ∧
    (∀ v : String, v ≠ "" → o.annotations.get? key = some v →
      (AnnotationToName key).toRequests ctx (some o)
        = .ok [{ NamespacedName := { Namespace := "", Name := v } }]) := by
  refine ⟨fun h => ?_, fun h => ?_, fun v hv hkey => ?_⟩
  · have hlen : o.annotations.len = 0 := by
      rcases h with h | ⟨d, h, hd⟩
      · rw [h]; rfl
      · rw [h]; simp [GoMap.len, hd]
    rw [AnnotationToName_some, if_pos hlen]
  · have hidx : o.annotations.index key = "" := by
      rcases h with h | h
      · exact GoMap.index_of_get?_none h
      · exact GoMap.index_of_get?_some h
    rw [AnnotationToName_some, if_pos hidx, ite_self]
  · rw [AnnotationToName_some, if_neg (GoMap.len_pos_of_get? hkey),
      GoMap.index_of_get?_some hkey, if_neg hv]
    rfl

theorem AnnotationToName_contract_witness :
    (AnnotationToName "owner").toRequests background (some emptyMaps) = .ok [] ∧
    (AnnotationToName "owner").toRequests background (some labelled) = .ok [] ∧
    (AnnotationToName "owner").toRequests background (some blank) = .ok [] ∧
    (AnnotationToName "owner").toRequests background (some annotated)
      = .ok [{ NamespacedName := { Namespace := "", Name := "team-a" } }] :=
  ⟨(AnnotationToName_contract "owner" background emptyMaps).1
     (Or.inr ⟨MapData.empty, rfl, rfl⟩),
   (AnnotationToName_contract "owner" background labelled).1 (Or.inl rfl),
   (AnnotationToName_contract "owner" background blank).2.1 (Or.inr (by decide)),
   (AnnotationToName_contract "owner" background annotated).2.2 "team-a"
     (by decide) (by decide)⟩

/-! ## ToNamed and Fn -/

/-- C5: for every non-empty name, every context and every object, the nil
object included, the mapping function of `ToNamed name` returns exactly one
request named `name` with the empty namespace, and the result is the same
for any two objects. -/
theorem ToNamed_constant (name : String) (_hname : name ≠ "") (ctx : Context)
    (a b : Option Object) :
    (ToNamed name).toRequests ctx a
      = .ok [{ NamespacedName := { Namespace := "", Name := name } }] ∧
    (ToNamed name).toRequests ctx none
      = .ok [{ NamespacedName := { Namespace := "", Name := name } }] ∧
    (ToNamed name).toRequests ctx a = (ToNamed name).toRequests ctx b :=
  ⟨rfl, rfl, rfl⟩

theorem ToNamed_constant_witness :
    (ToNamed "shared-config").toRequests background (some labelled)
      = .ok [{ NamespacedName := { Namespace := "", Name := "shared-config" } }] ∧
    (ToNamed "shared-config").toRequests background none
      = .ok [{ NamespacedName := { Namespace := "", Name := "shared-config" } }] ∧
    (ToNamed "shared-config").toRequests background (some labelled)
      = (ToNamed "shared-config").toRequests background none :=
  ToNamed_constant "shared-config" (by decide) background (some labelled) none

/-- C6: for every mapping function `fn`, every context and every object,
the mapping function exposed by `Fn fn` returns exactly what `fn` returns
there: the same outcome, the same requests in the same order. -/
theorem Fn_passthrough (fn : MapFunc) (ctx : Context) (a : Option Object) :
    (Fn fn).toRequests ctx a = fn ctx a ∧ (Fn fn).toRequests = fn :=
  ⟨rfl, rfl⟩

/-! ## Invariants of the returned requests -/

theorem lookup_outcome (m : GoMap) (key : String) :
    (if m.len = 0 then (.ok [] : Except Panic (List Request))
      else if m.index key = "" then .ok []
      else .ok [Request.named (m.index key)]) = .ok [] ∨
    (m.index key ≠ "" ∧
      (if m.len = 0 then (.ok [] : Except Panic (List Request))
        else if m.index key = "" then .ok []
        else .ok [Request.named (m.index key)]) = .ok [Request.named (m.index key)]) := by
  by_cases hlen : m.len = 0
  · left; rw [if_pos hlen]
  · by_cases hidx : m.index key = ""
    · left; rw [if_neg hlen, if_pos hidx]
    · right; exact ⟨hidx, by rw [if_neg hlen, if_neg hidx]⟩

theorem LabelToName_outcome (key : String) (ctx : Context) (o : Object) :
    (LabelToName key).toRequests ctx (some o) = .ok [] ∨
    (o.labels.index key ≠ "" ∧
      (LabelToName key).toRequests ctx (some o)
        = .ok [Request.named (o.labels.index key)]) := by
  rw [LabelToName_some]; exact lookup_outcome o.labels key

theorem AnnotationToName_outcome (key : String) (ctx : Context) (o : Object) :
    (AnnotationToName key).toRequests ctx (some o) = .ok [] ∨
    (o.annotations.index key ≠ "" ∧
      (AnnotationToName key).toRequests ctx (some o)
        = .ok [Request.named (o.annotations.index key)]) := by
  rw [AnnotationToName_some]; exact lookup_outcome o.annotations key

theorem LabelToName_nil (key : String) (ctx : Context) :
    (LabelToName key).toRequests ctx none = .error Panic.nilDereference := rfl

theorem AnnotationToName_nil (key : String) (ctx : Context) :
    (AnnotationToName key).toRequests ctx none = .error Panic.nilDereference := rfl

theorem NamesSet_nil : NamesSet [] := by
  intro r hr; cases hr

theorem NamesSet_named {name : String} (h : name ≠ "") : NamesSet [Request.named name] := by
  intro r hr
  rw [List.mem_singleton] at hr
  subst hr
  exact h

theorem NamespacesEmpty_nil : NamespacesEmpty [] := by
  intro r hr; cases hr

theorem NamespacesEmpty_named (name : String) : NamespacesEmpty [Request.named name] := by
  intro r hr
  rw [List.mem_singleton] at hr
  subst hr
  rfl

/-- C7 as stated fails: `ToNamed ""` returns a request whose name is
empty, and `Fn` hands on a blank name that its delegate returns. -/
theorem names_set_counterexample :
    (ToNamed "").toRequests background (some labelled)
      = .ok [{ NamespacedName := { Namespace := "", Name := "" } }] ∧
    ¬ IfReturns NamesSet ((ToNamed "").toRequests background (some labelled)) ∧
    (Fn blankDelegate).toRequests background (some labelled)
      = .ok [{ NamespacedName := { Namespace := "", Name := "" } }] ∧
    ¬ IfReturns NamesSet ((Fn blankDelegate).toRequests background (some labelled)) := by
  decide

/-- C7, amended: for every key, context and object, every request returned
by `LabelToName key` and by `AnnotationToName key` has a non-empty name, and
when the value read under `key` is empty the result is the empty sequence;
`ToNamed name` returns only non-empty names when `name` is not empty, and
`Fn fn` when the sequence `fn` returns there has only non-empty names. -/
theorem names_set (key name : String) (fn : MapFunc) (ctx : Context)
    (a : Option Object) (o : Object) :
    IfReturns NamesSet ((LabelToName key).toRequests ctx a) ∧
    IfReturns NamesSet ((AnnotationToName key).toRequests ctx a) ∧
    (o.labels.index key = "" → (LabelToName key).toRequests ctx (some o) = .ok []) ∧
    (o.annotations.index key = "" →
      (AnnotationToName key).toRequests ctx (some o) = .ok []) ∧
    (name ≠ "" → IfReturns NamesSet ((ToNamed name).toRequests ctx a)) ∧
    (IfReturns NamesSet (fn ctx a) → IfReturns NamesSet ((Fn fn).toRequests ctx a)) := by
  refine ⟨?_, ?_, fun h => ?_, fun h => ?_, fun h => ?_, fun h => h⟩
  · cases a with
    | none => rw [LabelToName_nil]; trivial
    | some x =>
      rcases LabelToName_outcome key ctx x with h | ⟨hne, h⟩
      · rw [h]; exact NamesSet_nil
      · rw [h]; exact NamesSet_named hne
  · cases a with
    | none => rw [AnnotationToName_nil]; trivial
    | some x =>
      rcases AnnotationToName_outcome key ctx x with h | ⟨hne, h⟩
      · rw [h]; exact NamesSet_nil
      · rw [h]; exact NamesSet_named hne
  · rw [LabelToName_some, if_pos h, ite_self]
  · rw [AnnotationToName_some, if_pos h, ite_self]
  · rw [ToNamed_apply]; exact NamesSet_named h

theorem names_set_witness :
    IfReturns NamesSet ((LabelToName "owner").toRequests background (some labelled)) ∧
    IfReturns NamesSet ((AnnotationToName "owner").toRequests background (some annotated)) ∧
    (LabelToName "owner").toRequests background (some blank) = .ok [] ∧
    (AnnotationToName "owner").toRequests background (some blank) = .ok [] ∧
    IfReturns NamesSet ((ToNamed "shared-config").toRequests background (some labelled)) ∧
    IfReturns NamesSet ((Fn twoDelegate).toRequests background (some labelled)) :=
  ⟨(names_set "owner" "shared-config" twoDelegate background (some labelled) blank).1,
   (names_set "owner" "shared-config" twoDelegate background (some annotated) blank).2.1,
   (names_set "owner" "shared-config" twoDelegate background (some labelled) blank).2.2.1
     (by decide),
   (names_set "owner" "shared-config" twoDelegate background (some labelled) blank).2.2.2.1
     (by decide),
   (names_set "owner" "shared-config" twoDelegate background (some labelled) blank).2.2.2.2.1
     (by decide),
   (names_set "owner" "shared-config" twoDelegate background (some labelled) blank).2.2.2.2.2
     (by decide)⟩

/-- C8: for every key, context and object, the sequence returned by
`LabelToName key` and the one returned by `AnnotationToName key` have length
zero or one: any returned sequence has, and on an object that is not nil a
sequence is returned. -/
theorem lookup_at_most_one (key : String) (ctx : Context) (a : Option Object)
    (o : Object) :
    IfReturns AtMostOne ((LabelToName key).toRequests ctx a) ∧
    IfReturns AtMostOne ((AnnotationToName key).toRequests ctx a) ∧
    Returns AtMostOne ((LabelToName key).toRequests ctx (some o)) ∧
    Returns AtMostOne ((AnnotationToName key).toRequests ctx (some o)) := by
  have hl : ∀ x : Object, Returns AtMostOne ((LabelToName key).toRequests ctx (some x)) := by
    intro x
    rcases LabelToName_outcome key ctx x with h | ⟨_, h⟩ <;> rw [h] <;>
      simp [Returns, AtMostOne]
  have ha : ∀ x : Object,
      Returns AtMostOne ((AnnotationToName key).toRequests ctx (some x)) := by
    intro x
    rcases AnnotationToName_outcome key ctx x with h | ⟨_, h⟩ <;> rw [h] <;>
      simp [Returns, AtMostOne]
  have weaken : ∀ res : Except Panic (List Request),
      Returns AtMostOne res → IfReturns AtMostOne res := by
    intro res h
    cases res with
    | ok rs => exact h
    | error e => trivial
  refine ⟨?_, ?_, hl o, ha o⟩
  · cases a with
    | none => rw [LabelToName_nil]; trivial
    | some x => exact weaken _ (hl x)
  · cases a with
    | none => rw [AnnotationToName_nil]; trivial
    | some x => exact weaken _ (ha x)

/-- C9 as stated fails at the nil object: `LabelToName` and
`AnnotationToName` call a method on their argument before any guard, so on
the nil interface value they panic and return no sequence. -/
theorem builtins_return_counterexample :
    (LabelToName "owner").toRequests background none = .error Panic.nilDereference ∧
    (AnnotationToName "owner").toRequests background none
      = .error Panic.nilDereference ∧
    (¬ ∃ rs, (LabelToName "owner").toRequests background none = .ok rs) ∧
    (¬ ∃ rs, (AnnotationToName "owner").toRequests background none = .ok rs) := by
  refine ⟨rfl, rfl, ?_, ?_⟩
  · rintro ⟨rs, h⟩
    rw [LabelToName_nil] at h
    cases h
  · rintro ⟨rs, h⟩
    rw [AnnotationToName_nil] at h
    cases h

/-- C9, amended: for every key, name and context, `LabelToName key` and
`AnnotationToName key` return a sequence on every object that is not nil,
whatever its maps, the result being the empty sequence when the map read is
nil (reading a key of a nil map does not fail), and `ToNamed name` returns a
sequence on every argument, the nil object included. -/
theorem builtins_return (key name : String) (ctx : Context) (o : Object)
    (a : Option Object) :
    (∃ rs, (LabelToName key).toRequests ctx (some o) = .ok rs) ∧
    (∃ rs, (AnnotationToName key).toRequests ctx (some o) = .ok rs) ∧
    (∃ rs, (ToNamed name).toRequests ctx a = .ok rs) ∧
    (LabelToName key).toRequests ctx (some { o with labels := none }) = .ok [] ∧
    (AnnotationToName key).toRequests ctx (some { o with annotations := none })
      = .ok [] := by
  refine ⟨?_, ?_, ⟨_, ToNamed_apply name ctx a⟩, rfl, rfl⟩
  · rcases LabelToName_outcome key ctx o with h | ⟨_, h⟩
    · exact ⟨_, h⟩
    · exact ⟨_, h⟩
  · rcases AnnotationToName_outcome key ctx o with h | ⟨_, h⟩
    · exact ⟨_, h⟩
    · exact ⟨_, h⟩

/-- C10 as stated fails for `Fn`: it hands on the namespace that its
delegate sets. -/
theorem namespaces_empty_counterexample :
    (Fn namespacedDelegate).toRequests background (some labelled)
      = .ok [{ NamespacedName := { Namespace := "default", Name := "cfg" } }] ∧
    ¬ IfReturns NamespacesEmpty
        ((Fn namespacedDelegate).toRequests background (some labelled)) := by
  decide

/-- C10, amended: for every key, name, context and object, every request
returned by `LabelToName key`, `AnnotationToName key` and `ToNamed name` has
the empty namespace; `Fn fn` returns the requests of `fn` as they are, so
its requests have the empty namespace when those of `fn` have. -/
theorem namespaces_empty (key name : String) (fn : MapFunc) (ctx : Context)
    (a : Option Object) :
    IfReturns NamespacesEmpty ((LabelToName key).toRequests ctx a) ∧
    IfReturns NamespacesEmpty ((AnnotationToName key).toRequests ctx a) ∧
    IfReturns NamespacesEmpty ((ToNamed name).toRequests ctx a) ∧
    (IfReturns NamespacesEmpty (fn ctx a) →
      IfReturns NamespacesEmpty ((Fn fn).toRequests ctx a)) := by
  refine ⟨?_, ?_, ?_, fun h => h⟩
  · cases a with
    | none => rw [LabelToName_nil]; trivial
    | some x =>
      rcases LabelToName_outcome key ctx x with h | ⟨_, h⟩
      · rw [h]; exact NamespacesEmpty_nil
      · rw [h]; exact NamespacesEmpty_named _
  · cases a with
    | none => rw [AnnotationToName_nil]; trivial
    | some x =>
      rcases AnnotationToName_outcome key ctx x with h | ⟨_, h⟩
      · rw [h]; exact NamespacesEmpty_nil
      · rw [h]; exact NamespacesEmpty_named _
  · rw [ToNamed_apply]; exact NamespacesEmpty_named _

theorem namespaces_empty_witness :
    IfReturns NamespacesEmpty
      ((LabelToName "owner").toRequests background (some labelled)) ∧
    IfReturns NamespacesEmpty
      ((AnnotationToName "owner").toRequests background (some annotated)) ∧
    IfReturns NamespacesEmpty
      ((ToNamed "shared-config").toRequests background (some labelled)) ∧
    IfReturns NamespacesEmpty ((Fn twoDelegate).toRequests background (some labelled)) :=
  ⟨(namespaces_empty "owner" "shared-config" twoDelegate background (some labelled)).1,
   (namespaces_empty "owner" "shared-config" twoDelegate background (some annotated)).2.1,
   (namespaces_empty "owner" "shared-config" twoDelegate background (some labelled)).2.2.1,
   (namespaces_empty "owner" "shared-config" twoDelegate background (some labelled)).2.2.2
     (by decide)⟩

/-! ## The lookup as a function of the value under the key -/

theorem GoMap.index_of_len_zero {m : GoMap} (key : String) (h : m.len = 0) :
    m.index key = "" := by
  cases m with
  | none => rfl
  | some d =>
    obtain ⟨entries, nodup⟩ := d
    cases entries with
    | nil => rfl
    | cons e rest => simp [GoMap.len] at h

/-- The guarded body of the two lookups computes the same outcome as the
body that only reads the key. -/
theorem guarded_eq_unguarded (m : GoMap) (key : String) :
    (if m.len = 0 then (.ok [] : Except Panic (List Request))
      else if m.index key = "" then .ok []
      else .ok [Request.named (m.index key)]) = lookupUnguarded m key := by
  unfold lookupUnguarded
  by_cases hlen : m.len = 0
  · rw [if_pos hlen]
    simp [GoMap.index_of_len_zero key hlen]
  · rw [if_neg hlen]

theorem lookupUnguarded_eq_lookupRequests (m : GoMap) (key : String) :
    lookupUnguarded m key = .ok (lookupRequests m key) := by
  unfold lookupUnguarded lookupRequests GoMap.index
  cases h : m.get? key with
  | none => simp
  | some v =>
    by_cases hv : v = ""
    · simp [hv]
    · simp [hv]

/-- C11: `LabelToName` and `AnnotationToName` are one lookup that differs
only in the map read: for every key and every map `m`, nil, empty or
populated, `LabelToName key` on an object whose labels are `m` and
`AnnotationToName key` on an object whose annotations are `m` return the
same result, which is the result of the shared helper `lookupRequests m key`
(no request or one). -/
theorem lookups_share_helper (key : String) (m : GoMap) (ctx : Context)
    (o₁ o₂ : Object) (h₁ : o₁.labels = m) (h₂ : o₂.annotations = m) :
    (LabelToName key).toRequests ctx (some o₁)
      = (AnnotationToName key).toRequests ctx (some o₂) ∧
    (LabelToName key).toRequests ctx (some o₁) = .ok (lookupRequests m key) ∧
    (AnnotationToName key).toRequests ctx (some o₂) = .ok (lookupRequests m key) ∧
    (lookupRequests m key).length ≤ 1 := by
  have hl : (LabelToName key).toRequests ctx (some o₁) = .ok (lookupRequests m key) := by
    rw [LabelToName_some, guarded_eq_unguarded, lookupUnguarded_eq_lookupRequests, h₁]
  have ha : (AnnotationToName key).toRequests ctx (some o₂)
      = .ok (lookupRequests m key) := by
    rw [AnnotationToName_some, guarded_eq_unguarded, lookupUnguarded_eq_lookupRequests, h₂]
  refine ⟨hl.trans ha.symm, hl, ha, ?_⟩
  unfold lookupRequests
  cases m.get? key with
  | none => simp
  | some v => by_cases hv : v = "" <;> simp [hv]

theorem lookups_share_helper_witness :
    (LabelToName "owner").toRequests background (some labelled)
      = (AnnotationToName "owner").toRequests background (some annotated) ∧
    (LabelToName "owner").toRequests background (some labelled)
      = .ok (lookupRequests (some ownerTier) "owner") ∧
    (AnnotationToName "owner").toRequests background (some annotated)
      = .ok (lookupRequests (some ownerTier) "owner") ∧
    (lookupRequests (some ownerTier) "owner").length ≤ 1 :=
  lookups_share_helper "owner" (some ownerTier) background labelled annotated rfl rfl

/-- C12: a built-in handler is a function of the object alone: for every
key, name and object argument and every two contexts, `LabelToName key`,
`AnnotationToName key` and `ToNamed name` give the same outcome under both
contexts, and on an object that is not nil the two lookups return one and
the same sequence under both. -/
theorem context_not_consulted (key name : String) (c₁ c₂ : Context)
    (a : Option Object) (o : Object) :
    (LabelToName key).toRequests c₁ a = (LabelToName key).toRequests c₂ a ∧
    (AnnotationToName key).toRequests c₁ a = (AnnotationToName key).toRequests c₂ a ∧
    (ToNamed name).toRequests c₁ a = (ToNamed name).toRequests c₂ a ∧
    (∃ rs, (LabelToName key).toRequests c₁ (some o) = .ok rs ∧
      (LabelToName key).toRequests c₂ (some o) = .ok rs) ∧
    (∃ rs, (AnnotationToName key).toRequests c₁ (some o) = .ok rs ∧
      (AnnotationToName key).toRequests c₂ (some o) = .ok rs) ∧
    (∃ rs, (ToNamed name).toRequests c₁ a = .ok rs ∧
      (ToNamed name).toRequests c₂ a = .ok rs) := by
  refine ⟨rfl, rfl, rfl, ?_, ?_, ⟨_, ToNamed_apply name c₁ a, ToNamed_apply name c₂ a⟩⟩
  · refine ⟨lookupRequests o.labels key, ?_, ?_⟩ <;>
      rw [LabelToName_some, guarded_eq_unguarded, lookupUnguarded_eq_lookupRequests]
  · refine ⟨lookupRequests o.annotations key, ?_, ?_⟩ <;>
      rw [AnnotationToName_some, guarded_eq_unguarded, lookupUnguarded_eq_lookupRequests]

/-- C13: the result of `LabelToName key` depends only on the value that the
label map gives for `key`, an absent key or a nil map reading as the empty
string: two objects whose label maps read the same under `key` get the same
result, whatever their other labels and their annotations; likewise
`AnnotationToName key` depends only on the annotation value under `key`. -/
theorem lookup_depends_on_value (key : String) (ctx : Context) (o₁ o₂ : Object) :
    (o₁.labels.index key = o₂.labels.index key →
      (LabelToName key).toRequests ctx (some o₁)
        = (LabelToName key).toRequests ctx (some o₂)) ∧
    (o₁.annotations.index key = o₂.annotations.index key →
      (AnnotationToName key).toRequests ctx (some o₁)
        = (AnnotationToName key).toRequests ctx (some o₂)) := by
  constructor
  · intro h
    rw [LabelToName_some, LabelToName_some, guarded_eq_unguarded, guarded_eq_unguarded]
    unfold lookupUnguarded
    simp only [h]
  · intro h
    rw [AnnotationToName_some, AnnotationToName_some, guarded_eq_unguarded,
      guarded_eq_unguarded]
    unfold lookupUnguarded
    simp only [h]

theorem lookup_depends_on_value_witness :
    labelled.labels.index "owner" = ownerOnly.labels.index "owner" ∧
    (LabelToName "owner").toRequests background (some labelled)
      = (LabelToName "owner").toRequests background (some ownerOnly) ∧
    bare.annotations.index "owner" = ownerOnly.annotations.index "owner" ∧
    (AnnotationToName "owner").toRequests background (some bare)
      = (AnnotationToName "owner").toRequests background (some ownerOnly) :=
  ⟨by decide,
   (lookup_depends_on_value "owner" background labelled ownerOnly).1 (by decide),
   by decide,
   (lookup_depends_on_value "owner" background bare ownerOnly).2 (by decide)⟩

/-- C14: the early return on `len(values) == 0` is redundant: for every
key, context and argument, whatever the map read (nil, empty or populated),
`LabelToName key` gives the outcome of `LabelToNameUnguarded key`, which only
reads the key and returns nothing for the empty string and the one request
named by the value otherwise; the same for `AnnotationToName`. -/
theorem length_guard_redundant (key : String) (ctx : Context) (a : Option Object) :
    (LabelToName key).toRequests ctx a = (LabelToNameUnguarded key).toRequests ctx a ∧
    (AnnotationToName key).toRequests ctx a
      = (AnnotationToNameUnguarded key).toRequests ctx a := by
  cases a with
  | none => exact ⟨rfl, rfl⟩
  | some o =>
    constructor
    · rw [LabelToName_some, guarded_eq_unguarded]; rfl
    · rw [AnnotationToName_some, guarded_eq_unguarded]; rfl

example : (LabelToName "owner").toRequests background (some labelled)
    = .ok [Request.named "team-a"] := by decide
example : (LabelToName "missing").toRequests background (some labelled) = .ok [] := by decide
example : (LabelToName "owner").toRequests background (some blank) = .ok [] := by decide
example : (AnnotationToName "owner").toRequests background (some emptyMaps) = .ok [] := by
  decide
example : (LabelToName "owner").toRequests background none
    = .error Panic.nilDereference := by decide
example : (ToNamed "shared-config").toRequests background none
    = .ok [Request.named "shared-config"] := by decide
example : (LabelToNameUnguarded "owner").toRequests background (some bare) = .ok [] := by
  decide
example : (LabelToNameUnguarded "tier").toRequests cancelledCtx (some labelled)
    = .ok [Request.named "gold"] := by decide
example : lookupRequests none "owner" = [] := by decide
example : lookupRequests (some blankOwner) "tier" = [Request.named "gold"] := by decide

end Handlers
